import Mathlib

/-!
Verification of the ephemeral code-gated data exchange backend (src/server.js).

The JavaScript source is shallowly embedded: each Express route handler
becomes a pure Lean function from the current store state and the parsed
request to the next store state and a classified response.  MongoDB (via
mongoose) is modelled as a list of documents with `findOne` / save /
unique-key insert / `deleteOne` operations.  `Date` values are modelled as
natural-number timestamps supplied by the caller, and `Math.random` as a
rational number in `[0, 1)`.
-/

/-- Semi-structured JSON-ish values as carried in request bodies and in the
`Mixed`-typed `data` field of a stored item (`undefined` included, since the
handlers inspect absent fields). -/
inductive JsValue where
  | undef
  | null
  | bool (b : Bool)
  | num (n : Int)
  | str (s : String)
  | arr (elems : List JsValue)
  | obj (fields : List (String × JsValue))

/-- JavaScript truthiness of a value (`!v` is the negation of this). -/
def truthy : JsValue → Bool
  | .undef => false
  | .null => false
  | .bool b => b
  | .num n => n != 0
  | .str s => s ≠ ""
  | .arr _ => true
  | .obj _ => true

/-- `Array.isArray`. -/
def isArr : JsValue → Bool
  | .arr _ => true
  | _ => false

/-- The elements of an array value. -/
def jsElems : JsValue → List JsValue
  | .arr l => l
  | _ => []

/-- The `.length` property of a value (`none` = `undefined`): strings and
arrays have a numeric length, objects may carry an explicit field. -/
def lengthProp : JsValue → Option JsValue
  | .str s => some (.num s.length)
  | .arr l => some (.num l.length)
  | .obj fs => List.lookup "length" fs
  | _ => none

/-- The underlying string of a string value (file payloads are always stored
as base64 strings). -/
def jsStr : JsValue → String
  | .str s => s
  | _ => ""

/-- `x || d` for an optional string field: the default is used when the field
is absent or falsy (the empty string is falsy). -/
def jsOrElse (o : Option String) (d : String) : String :=
  match o with
  | some s => if s = "" then d else s
  | none => d

/-- Value of one base64 alphabet character (`none` for non-alphabet input,
which `Buffer.from(_, "base64")` skips). -/
def b64CharVal (c : Char) : Option Nat :=
  if 'A' ≤ c ∧ c ≤ 'Z' then some (c.toNat - 65)
  else if 'a' ≤ c ∧ c ≤ 'z' then some (c.toNat - 97 + 26)
  else if '0' ≤ c ∧ c ≤ '9' then some (c.toNat - 48 + 52)
  else if c = '+' then some 62
  else if c = '/' then some 63
  else none

/-- Decode a stream of 6-bit base64 values into bytes. -/
def b64Group : List Nat → List Nat
  | a :: b :: c :: d :: rest =>
      (a * 4 + b / 16) :: (b % 16 * 16 + c / 4) :: (c % 4 * 64 + d) :: b64Group rest
  | [a, b, c] => [a * 4 + b / 16, b % 16 * 16 + c / 4]
  | [a, b] => [a * 4 + b / 16]
  | _ => []

/-- `Buffer.from(s, "base64")`: bytes of the base64 string (padding and
non-alphabet characters are skipped). -/
def base64Decode (s : String) : List Nat :=
  b64Group (s.data.filterMap b64CharVal)

/-- One base64 alphabet character for a 6-bit value. -/
def b64Char (v : Nat) : Char :=
  if v < 26 then Char.ofNat (65 + v)
  else if v < 52 then Char.ofNat (97 + (v - 26))
  else if v < 62 then Char.ofNat (48 + (v - 52))
  else if v = 62 then '+'
  else '/'

/-- Encode bytes three at a time into base64 characters with `=` padding. -/
def b64EncGroup : List Nat → List Char
  | a :: b :: c :: rest =>
      b64Char (a / 4) :: b64Char (a % 4 * 16 + b / 16) ::
        b64Char (b % 16 * 4 + c / 64) :: b64Char (c % 64) :: b64EncGroup rest
  | [a, b] => [b64Char (a / 4), b64Char (a % 4 * 16 + b / 16), b64Char (b % 16 * 4), '=']
  | [a] => [b64Char (a / 4), b64Char (a % 4 * 16), '=', '=']
  | [] => []

/-- `buffer.toString("base64")`. -/
def base64Encode (bytes : List Nat) : String :=
  String.mk (b64EncGroup bytes)

/-- `s.toUpperCase()`: ASCII upper-casing, character by character. -/
def jsToUpper (s : String) : String :=
  String.mk (s.data.map Char.toUpper)

/-- `parseInt(s)` with radix 10 or an explicit `0x` hex prefix: skip leading
whitespace, read an optional sign, then the longest digit prefix; `none`
models `NaN` (no digits at all). -/
def parseIntJs (s : String) : Option Int :=
  let cs := s.data.dropWhile fun c => c = ' ' ∨ c = '\t' ∨ c = '\n' ∨ c = '\r'
  let signed : Int × List Char :=
    match cs with
    | '-' :: rest => (-1, rest)
    | '+' :: rest => (1, rest)
    | _ => (1, cs)
  let hexed : Nat × List Char :=
    match signed.2 with
    | '0' :: 'x' :: rest => (16, rest)
    | '0' :: 'X' :: rest => (16, rest)
    | rest => (10, rest)
  let isDig : Char → Bool := fun c =>
    if hexed.1 = 16 then c.isDigit ∨ ('a' ≤ c ∧ c ≤ 'f') ∨ ('A' ≤ c ∧ c ≤ 'F')
    else c.isDigit
  let digVal : Char → Nat := fun c =>
    if c.isDigit then c.toNat - 48
    else if 'a' ≤ c ∧ c ≤ 'f' then c.toNat - 97 + 10
    else c.toNat - 65 + 10
  let ds := hexed.2.takeWhile isDig
  if ds = [] then none
  else some (signed.1 * (ds.foldl (fun acc c => acc * hexed.1 + digVal c) 0 : Nat))

/-- One stored file/data item (`DataItemSchema`): `data` is the `Mixed`
payload, the three file fields are optional, `isFile` and `downloaded`
default to `false`, `downloadedAt` is an optional timestamp. -/
structure DataItem where
  data : JsValue
  fileName : Option String := none
  fileType : Option String := none
  fileSize : Option Nat := none
  isFile : Bool := false
  downloaded : Bool := false
  downloadedAt : Option Nat := none

/-- One exchange document (`DataSchema`): a unique `code`, the item array,
the `verified` flag and the two record-level timestamps. -/
structure DataRecord where
  code : String
  items : List DataItem
  verified : Bool := false
  createdAt : Nat
  verifiedAt : Option Nat := none

/-- The MongoDB collection behind `DataModel`, as the list of its
documents. -/
abbrev Store := List DataRecord

/-- `DataModel.findOne({code})`: the first document whose `code` matches. -/
def findOne (s : Store) (code : String) : Option DataRecord :=
  s.find? fun r => r.code = code

/-- `document.save()` on a previously fetched document: the stored document
with the same key is replaced by the mutated one. -/
def saveReplace (s : Store) (r : DataRecord) : Store :=
  s.map fun x => if x.code = r.code then r else x

/-- `new DataModel(...).save()`: the unique index on `code` makes the insert
fail distinguishably (`none`) when a document with that code already
exists. -/
def insertNew (s : Store) (r : DataRecord) : Option Store :=
  if (findOne s r.code).isSome then none else some (s ++ [r])

/-- `DataModel.deleteOne({code})`: removes the first matching document. -/
def deleteFirst (s : Store) (code : String) : Store :=
  match s with
  | [] => []
  | r :: rest => if r.code = code then rest else r :: deleteFirst rest code

/-- Does mongoose validation reject this item?  `data` is declared
`required`, which fails exactly on `undefined` and `null`. -/
def badData (it : DataItem) : Bool :=
  match it.data with
  | .undef => true
  | .null => true
  | _ => false

/-- `Math.floor(100000 + Math.random() * 900000)` where `r` models the
`Math.random()` draw in `[0, 1)`. -/
def genCodeNat (r : ℚ) : Nat :=
  (Int.floor ((100000 : ℚ) + r * 900000)).toNat

/-- `generateCode()`: the 6-digit code as a decimal string
(`.toString()`). -/
def generateCode (r : ℚ) : String :=
  Nat.repr (genCodeNat r)

/-- The `while (!isUnique)` loop of both ingestion routes: draw a candidate
code, look it up, stop at the first code with no existing document.  `rands`
is the stream of `Math.random()` draws; `none` models the loop never
terminating (every candidate collides). -/
def genFindFresh (s : Store) (rands : List ℚ) : Option String :=
  (rands.map generateCode).find? fun c => (findOne s c).isNone

/-- `multipleData.length === 0`: true exactly when the length property
evaluates to the number `0` (`undefined === 0` is false). -/
def lengthZero (v : JsValue) : Bool :=
  match lengthProp v with
  | some (.num 0) => true
  | _ => false

/-- Classified outcome of `POST /api/generate-code`. -/
inductive GenerateResult where
  | validationError
  | internalError
  | success (code : String) (itemCount : Nat)
deriving DecidableEq

/-- The item list built by the structured-ingestion route: the array branch
when `multipleData && Array.isArray(multipleData)`, otherwise a single item
from `data`. -/
def buildItems (data multipleData : JsValue) : List DataItem :=
  if truthy multipleData && isArr multipleData then
    (jsElems multipleData).map fun v => { data := v, isFile := false, downloaded := false }
  else
    [{ data := data, isFile := false, downloaded := false }]

/-- `newData.save()` plus the response of `POST /api/generate-code`: a
mongoose validation failure or a duplicate-key rejection both land in the
route's `catch` block, which answers 500. -/
def genInsert (s : Store) (code : String) (items : List DataItem) (now : Nat) :
    Store × GenerateResult :=
  if items.any badData then (s, .internalError)
  else
    match insertNew s { code := code, items := items, verified := false, createdAt := now } with
    | none => (s, .internalError)
    | some s2 => (s2, .success code items.length)

/-- `POST /api/generate-code`: validate the body, run the uniqueness loop,
build the items and save.  `none` models the loop spinning forever. -/
def generateCodeHandler (s : Store) (data multipleData : JsValue) (rands : List ℚ)
    (now : Nat) : Option (Store × GenerateResult) :=
  if truthy data = false ∧ (truthy multipleData = false ∨ lengthZero multipleData = true) then
    some (s, .validationError)
  else
    match genFindFresh s rands with
    | none => none
    | some code => some (genInsert s code (buildItems data multipleData) now)

/-- One uploaded file as multer delivers it to the route. -/
structure UploadFile where
  buffer : List Nat
  originalname : String
  mimetype : String
  size : Nat
deriving DecidableEq

/-- Per-file metadata echoed by the upload route. -/
structure UploadMeta where
  fileName : Option String
  fileType : Option String
  fileSize : Option Nat
deriving DecidableEq

/-- Classified outcome of `POST /api/upload-file`. -/
inductive UploadResult where
  | validationError
  | internalError
  | success (code : String) (files : List UploadMeta)
deriving DecidableEq

/-- The items built from the uploaded files: payload is the base64 rendering
of the buffer, the file fields are copied, `isFile` is set. -/
def uploadItems (files : List UploadFile) : List DataItem :=
  files.map fun f =>
    { data := .str (base64Encode f.buffer), fileName := some f.originalname,
      fileType := some f.mimetype, fileSize := some f.size, isFile := true,
      downloaded := false }

/-- `POST /api/upload-file`: require at least one file, run the uniqueness
loop, save, and echo the per-file metadata.  Save failures (including a
duplicate-key rejection) land in the `catch` block and answer 500. -/
def uploadFileHandler (s : Store) (files : List UploadFile) (rands : List ℚ)
    (now : Nat) : Option (Store × UploadResult) :=
  if files.length = 0 then some (s, .validationError)
  else
    match genFindFresh s rands with
    | none => none
    | some code =>
      if (uploadItems files).any badData then some (s, .internalError)
      else
        match insertNew s
            { code := code, items := uploadItems files, verified := false, createdAt := now } with
        | none => some (s, .internalError)
        | some s2 =>
          some (s2, .success code
            ((uploadItems files).map fun it => ⟨it.fileName, it.fileType, it.fileSize⟩))

/-- The per-item projection shared by verification and the metadata read:
index, flags, file fields, and the payload only for non-file items (`data:
item.isFile ? null : item.data`). -/
structure ItemMeta where
  id : Nat
  isFile : Bool
  fileName : Option String
  fileType : Option String
  fileSize : Option Nat
  downloaded : Bool
  data : JsValue

/-- `items.map((item, index) => ...)` body of the two read routes. -/
def itemMeta (idx : Nat) (it : DataItem) : ItemMeta :=
  { id := idx, isFile := it.isFile, fileName := it.fileName, fileType := it.fileType,
    fileSize := it.fileSize, downloaded := it.downloaded,
    data := if it.isFile then JsValue.null else it.data }

/-- Index-aware map over the item array, starting at index `k`. -/
def metaItems (k : Nat) : List DataItem → List ItemMeta
  | [] => []
  | it :: rest => itemMeta k it :: metaItems (k + 1) rest

/-- Classified outcome of `POST /api/verify-code`. -/
inductive VerifyResult where
  | validationError
  | notFound
  | internalError
  | success (code : String) (items : List ItemMeta) (itemCount : Nat)
      (verified : Bool) (createdAt : Nat)

/-- `POST /api/verify-code`: require a truthy `code`, look the record up
case-insensitively, set `verified`/`verifiedAt`, save, and answer with the
per-item metadata.  A non-string truthy `code` makes `code.toUpperCase()`
throw, which the `catch` block turns into a 500. -/
def verifyHandler (s : Store) (code : JsValue) (now : Nat) : Store × VerifyResult :=
  if truthy code = false then (s, .validationError)
  else
    match code with
    | .str c =>
      match findOne s (jsToUpper c) with
      | none => (s, .notFound)
      | some dataEntry =>
        let entry2 := { dataEntry with verified := true, verifiedAt := some now }
        (saveReplace s entry2,
         .success dataEntry.code (metaItems 0 dataEntry.items) dataEntry.items.length
           true dataEntry.createdAt)
    | _ => (s, .internalError)

/-- Classified outcome of `GET /api/data/:code`. -/
inductive GetDataResult where
  | notFound
  | success (code : String) (items : List ItemMeta) (itemCount : Nat)
      (verified : Bool) (createdAt : Nat) (verifiedAt : Option Nat)

/-- `GET /api/data/:code`: the read-only metadata view; no mutation. -/
def getDataHandler (s : Store) (code : String) : Store × GetDataResult :=
  match findOne s (jsToUpper code) with
  | none => (s, .notFound)
  | some dataEntry =>
    (s, .success dataEntry.code (metaItems 0 dataEntry.items) dataEntry.items.length
      dataEntry.verified dataEntry.createdAt dataEntry.verifiedAt)

/-- Classified outcome of `GET /api/download/:code/:itemId`. -/
inductive DownloadResult where
  | notFound (msg : String)
  | alreadyConsumed
  | internalError
  | fileResponse (bytes : List Nat) (fileName : String) (fileType : String)
  | jsonResponse (code : String) (itemId : Int) (data : JsValue) (createdAt : Nat)

/-- The response body once an item has been marked downloaded: file items
are answered with the decoded bytes, filename and media type; data items
with the structured JSON envelope. -/
def itemResponse (dataEntry : DataRecord) (item : DataItem) (code itemId : String)
    (itemIndex : Int) : DownloadResult :=
  if item.isFile then
    .fileResponse (base64Decode (jsStr item.data))
      (jsOrElse item.fileName ("file-" ++ code ++ "-" ++ itemId))
      (jsOrElse item.fileType "application/octet-stream")
  else
    .jsonResponse dataEntry.code itemIndex item.data dataEntry.createdAt

/-- First await of the download route: `DataModel.findOne({code})`, the read
step of the read-modify-write sequence. -/
def downloadFetch (s : Store) (code : String) : Option DataRecord :=
  findOne s (jsToUpper code)

/-- Rest of the download route, operating on the snapshot `dataEntry`
returned by the fetch: `parseInt` the index, range-check it, reject an
already-downloaded item with 410, otherwise mark the item downloaded and
save the whole document back over the current store.  A `NaN` index passes
the range check (`NaN < 0` and `NaN >= length` are both false) and the
subsequent property access on `items[NaN]` throws, which the `catch` block
turns into a 500. -/
def downloadCommit (s : Store) (dataEntry : DataRecord) (code itemId : String)
    (now : Nat) : Store × DownloadResult :=
  match parseIntJs itemId with
  | none => (s, .internalError)
  | some i =>
    if i < 0 ∨ (dataEntry.items.length : Int) ≤ i then (s, .notFound "Item not found")
    else
      match dataEntry.items[i.toNat]? with
      | none => (s, .internalError)
      | some item =>
        if item.downloaded then (s, .alreadyConsumed)
        else
          let item2 := { item with downloaded := true, downloadedAt := some now }
          let entry2 := { dataEntry with items := dataEntry.items.set i.toNat item2 }
          (saveReplace s entry2, itemResponse dataEntry item2 code itemId i)

/-- `GET /api/download/:code/:itemId`: fetch then commit. -/
def downloadHandler (s : Store) (code itemId : String) (now : Nat) :
    Store × DownloadResult :=
  match downloadFetch s code with
  | none => (s, .notFound "Data not found")
  | some dataEntry => downloadCommit s dataEntry code itemId now

/-- Classified outcome of `DELETE /api/data/:code`. -/
inductive DeleteResult where
  | notFound
  | success
deriving DecidableEq

/-- `DELETE /api/data/:code`: a lookup guard (404 on absence, a no-op delete
is rejected) followed by `deleteOne`. -/
def deleteHandler (s : Store) (code : String) : Store × DeleteResult :=
  match findOne s (jsToUpper code) with
  | none => (s, .notFound)
  | some _ => (deleteFirst s (jsToUpper code), .success)

example : parseIntJs "12" = some 12 := by decide
example : parseIntJs "abc" = none := by decide
example : parseIntJs "-3" = some (-3) := by decide
example : parseIntJs "0x1A" = some 26 := by decide
example : parseIntJs "  7junk" = some 7 := by decide
example : base64Decode (base64Encode [104, 105]) = [104, 105] := by decide
example : truthy (.str "") = false := by decide

/-! ### Helper lemmas -/

theorem toDigitsCore_length_mono (b : Nat) :
    ∀ (f n : Nat) (acc : List Char), acc.length ≤ (Nat.toDigitsCore b f n acc).length := by
  intro f
  induction f with
  | zero => intro n acc; simp [Nat.toDigitsCore]
  | succ f ih =>
    intro n acc
    simp only [Nat.toDigitsCore]
    split
    · simp
    · exact le_trans (by simp) (ih (n / b) (Nat.digitChar (n % b) :: acc))

theorem toDigitsCore_length_ge (b : Nat) (hb : 2 ≤ b) :
    ∀ (f n e : Nat) (acc : List Char), b ^ e ≤ n → n < b ^ f →
      e + 1 + acc.length ≤ (Nat.toDigitsCore b f n acc).length := by
  intro f
  induction f with
  | zero =>
    intro n e acc hle hlt
    exfalso
    have hp : 0 < b ^ e := Nat.pos_pow_of_pos e (by omega)
    simp at hlt
    omega
  | succ f ih =>
    intro n e acc hle hlt
    have hbpos : 0 < b := by omega
    simp only [Nat.toDigitsCore]
    cases e with
    | zero =>
      split
      · simp only [List.length_cons]
        omega
      · have := toDigitsCore_length_mono b f (n / b) (Nat.digitChar (n % b) :: acc)
        simp only [List.length_cons] at this
        omega
    | succ e =>
      have hdiv : b ^ e ≤ n / b := by
        rw [Nat.le_div_iff_mul_le hbpos]
        calc b ^ e * b = b ^ (e + 1) := (pow_succ b e).symm
          _ ≤ n := hle
      have hne : ¬ n / b = 0 := by
        have hp : 0 < b ^ e := Nat.pos_pow_of_pos e hbpos
        omega
      have hdivlt : n / b < b ^ f := by
        rw [Nat.div_lt_iff_lt_mul hbpos]
        calc n < b ^ (f + 1) := hlt
          _ = b ^ f * b := pow_succ b f
      rw [if_neg hne]
      have := ih (n / b) e (Nat.digitChar (n % b) :: acc) hdiv hdivlt
      simp only [List.length_cons] at this
      omega

theorem repr_length_ge (n e : Nat) (h : 10 ^ e ≤ n) : e + 1 ≤ (Nat.repr n).length := by
  have hlt : n < 10 ^ (n + 1) :=
    lt_of_lt_of_le (Nat.lt_pow_self (by omega) n)
      (Nat.pow_le_pow_right (by omega) (by omega))
  have := toDigitsCore_length_ge 10 (by omega) (n + 1) n e [] h hlt
  simpa [Nat.repr, Nat.toDigits, List.asString, String.length] using this

theorem genCodeNat_bounds (r : ℚ) (h0 : 0 ≤ r) (h1 : r < 1) :
    100000 ≤ genCodeNat r ∧ genCodeNat r ≤ 999999 := by
  have hlo : (100000 : ℤ) ≤ Int.floor ((100000 : ℚ) + r * 900000) := by
    rw [Int.le_floor]
    push_cast
    nlinarith
  have hhi : Int.floor ((100000 : ℚ) + r * 900000) < 1000000 := by
    rw [Int.floor_lt]
    push_cast
    nlinarith
  unfold genCodeNat
  omega

theorem genCodeNat_zero : genCodeNat 0 = 100000 := by
  norm_num [genCodeNat]
  rfl

theorem generateCode_zero : generateCode 0 = "100000" := by
  rw [generateCode, genCodeNat_zero]
  rfl

/-! ### C7: the code generator -/

/-- C7: every code the generator returns for a `Math.random()` draw in
`[0, 1)` is a numeric string of exactly 6 characters whose value lies in the
inclusive range `[100000, 999999]` (hence no leading zero). -/
theorem C7_generateCode_six_digits (r : ℚ) (h0 : 0 ≤ r) (h1 : r < 1) :
    100000 ≤ genCodeNat r ∧ genCodeNat r ≤ 999999 ∧
      generateCode r = Nat.repr (genCodeNat r) ∧ (generateCode r).length = 6 := by
  obtain ⟨hlo, hhi⟩ := genCodeNat_bounds r h0 h1
  refine ⟨hlo, hhi, rfl, ?_⟩
  have hub : (Nat.repr (genCodeNat r)).length ≤ 6 :=
    Nat.repr_length (genCodeNat r) 6 (by omega) (by omega)
  have hlb : 5 + 1 ≤ (Nat.repr (genCodeNat r)).length :=
    repr_length_ge (genCodeNat r) 5 (by norm_num; omega)
  rw [generateCode]
  omega

/-- Witness for C7 at the concrete draw `r = 0`. -/
theorem C7_generateCode_six_digits_witness :
    100000 ≤ genCodeNat 0 ∧ genCodeNat 0 ≤ 999999 ∧
      generateCode 0 = Nat.repr (genCodeNat 0) ∧ (generateCode 0).length = 6 :=
  C7_generateCode_six_digits 0 (by norm_num) (by norm_num)

theorem findOne_code {s : Store} {c : String} {r : DataRecord}
    (h : findOne s c = some r) : r.code = c := by
  have := List.find?_some h
  exact of_decide_eq_true this

theorem findOne_saveReplace {s : Store} {c : String} {r r2 : DataRecord}
    (h : findOne s c = some r) (h2 : r2.code = c) :
    findOne (saveReplace s r2) c = some r2 := by
  induction s with
  | nil => simp [findOne] at h
  | cons a t ih =>
    by_cases hac : a.code = c
    · simp [findOne, saveReplace, hac, h2]
    · have ht : findOne t c = some r := by
        simpa [findOne, List.find?, hac] using h
      have := ih ht
      simpa [findOne, saveReplace, List.find?, hac, h2] using this

theorem getElem?_lt {l : List DataItem} {j : Nat} {it : DataItem}
    (h : l[j]? = some it) : j < l.length := by
  by_contra hc
  push_neg at hc
  rw [List.getElem?_eq_none hc] at h
  exact Option.noConfusion h

/-- Case analysis of one download call against a store in which the looked-up
record holds `item` at the parsed index: an already-downloaded item is
answered 410 with no state change, otherwise exactly that item is flipped,
the document is saved, and the payload is returned. -/
theorem downloadHandler_cases (s : Store) (code itemId : String) (now : Nat)
    (dataEntry : DataRecord) (j : Nat) (item : DataItem)
    (hrec : findOne s (jsToUpper code) = some dataEntry)
    (hparse : parseIntJs itemId = some (j : Int))
    (hitem : dataEntry.items[j]? = some item) :
    (item.downloaded = true →
      downloadHandler s code itemId now = (s, .alreadyConsumed)) ∧
    (item.downloaded = false →
      downloadHandler s code itemId now =
        (saveReplace s { dataEntry with
            items := dataEntry.items.set j
              { item with downloaded := true, downloadedAt := some now } },
         itemResponse dataEntry
           { item with downloaded := true, downloadedAt := some now }
           code itemId (j : Int)) ∧
      ∀ k, k ≠ j →
        (dataEntry.items.set j
          { item with downloaded := true, downloadedAt := some now })[k]? =
          dataEntry.items[k]?) := by
  have hj : j < dataEntry.items.length := getElem?_lt hitem
  have hneg : ¬ ((j : Int) < 0) := by omega
  have hle : ¬ ((dataEntry.items.length : Int) ≤ (j : Int)) := by omega
  have hle2 : ¬ (dataEntry.items.length ≤ j) := by omega
  have htn : ((j : Int)).toNat = j := by omega
  constructor
  · intro hd
    simp [downloadHandler, downloadFetch, hrec, downloadCommit, hparse, hneg, hle, hle2,
      htn, hitem, hd]
  · intro hd
    refine ⟨?_, ?_⟩
    · simp [downloadHandler, downloadFetch, hrec, downloadCommit, hparse, hneg, hle, hle2,
        htn, hitem, hd]
    · intro k hk
      exact List.getElem?_set_ne (by omega)

/-! ### C1: consumption is at-most-once per item -/

/-- C1: for every record and in-range item index, downloading an item whose
`downloaded` flag is already set fails with 410 `AlreadyConsumed`, returns no
payload and leaves the store (hence every item's flags, timestamps and
payloads) unchanged; downloading an unconsumed item sets `downloaded` and
`downloadedAt`, persists the change, returns that item's payload, and leaves
every other index of the item array untouched. -/
theorem C1_consume_flip_exactly_one (s : Store) (code itemId : String) (now : Nat)
    (dataEntry : DataRecord) (j : Nat) (item : DataItem)
    (hrec : findOne s (jsToUpper code) = some dataEntry)
    (hparse : parseIntJs itemId = some (j : Int))
    (hitem : dataEntry.items[j]? = some item) :
    (item.downloaded = true →
      downloadHandler s code itemId now = (s, .alreadyConsumed)) ∧
    (item.downloaded = false →
      downloadHandler s code itemId now =
        (saveReplace s { dataEntry with
            items := dataEntry.items.set j
              { item with downloaded := true, downloadedAt := some now } },
         itemResponse dataEntry
           { item with downloaded := true, downloadedAt := some now }
           code itemId (j : Int)) ∧
      ∀ k, k ≠ j →
        (dataEntry.items.set j
          { item with downloaded := true, downloadedAt := some now })[k]? =
          dataEntry.items[k]?) :=
  downloadHandler_cases s code itemId now dataEntry j item hrec hparse hitem

/-- Witness for C1: a one-item record whose item is already downloaded is
answered 410 and the store is unchanged. -/
theorem C1_consume_flip_exactly_one_witness :
    downloadHandler
        [{ code := "123456", items := [{ data := JsValue.str "hi", downloaded := true }],
           createdAt := 0 }] "123456" "0" 5 =
      ([{ code := "123456", items := [{ data := JsValue.str "hi", downloaded := true }],
          createdAt := 0 }], .alreadyConsumed) :=
  (C1_consume_flip_exactly_one
    [{ code := "123456", items := [{ data := JsValue.str "hi", downloaded := true }],
       createdAt := 0 }] "123456" "0" 5
    { code := "123456", items := [{ data := JsValue.str "hi", downloaded := true }],
      createdAt := 0 }
    0 { data := JsValue.str "hi", downloaded := true } rfl rfl rfl).1 rfl

/-! ### C2: the consumption race -/

/-- `n` download calls for the same `(code, itemId)` issued strictly one
after the other (each call's fetch and commit complete before the next call
starts), at times `t, t+1, ...`. -/
def runConsumes (code itemId : String) : Store → Nat → Nat → Store × List DownloadResult
  | s, _, 0 => (s, [])
  | s, t, n + 1 =>
    let p := downloadHandler s code itemId t
    let q := runConsumes code itemId p.1 (t + 1) n
    (q.1, p.2 :: q.2)

theorem runConsumes_stuck (code itemId : String) (s : Store) (t n : Nat)
    (h : ∀ u : Nat, downloadHandler s code itemId u = (s, .alreadyConsumed)) :
    runConsumes code itemId s t n = (s, List.replicate n .alreadyConsumed) := by
  induction n generalizing t with
  | zero => simp [runConsumes]
  | succ n ih => simp [runConsumes, h t, ih (t + 1), List.replicate_succ]

/-- Counterexample to C2: the route is a separate read (`findOne`) and write
(`save`), not a single conditional update, so two calls whose fetches both
complete before either commit both observe `downloaded = false` on the same
snapshot and both receive the payload.  Schedule: fetch A, fetch B, commit A
(succeeds), commit B (succeeds again). -/
theorem C2_interleaved_consume_both_succeed :
    downloadFetch [{ code := "123456", items := [{ data := JsValue.str "hi" }], createdAt := 0 }]
        "123456" =
      some { code := "123456", items := [{ data := JsValue.str "hi" }], createdAt := 0 } ∧
    (downloadCommit [{ code := "123456", items := [{ data := JsValue.str "hi" }], createdAt := 0 }]
        { code := "123456", items := [{ data := JsValue.str "hi" }], createdAt := 0 }
        "123456" "0" 1).2 =
      DownloadResult.jsonResponse "123456" 0 (.str "hi") 0 ∧
    (downloadCommit
        (downloadCommit [{ code := "123456", items := [{ data := JsValue.str "hi" }], createdAt := 0 }]
          { code := "123456", items := [{ data := JsValue.str "hi" }], createdAt := 0 }
          "123456" "0" 1).1
        { code := "123456", items := [{ data := JsValue.str "hi" }], createdAt := 0 }
        "123456" "0" 2).2 =
      DownloadResult.jsonResponse "123456" 0 (.str "hi") 0 :=
  ⟨rfl, rfl, rfl⟩

/-- C2 (amended): the consume sequence is separate read and write steps, so
at-most-once holds only when calls do not interleave: of `n + 1` download
calls for the same `(code, itemIndex)` run strictly in sequence the first
receives the payload (never 410/404/500) and the remaining `n` receive
`AlreadyConsumed`, and the item's `downloaded` flag is true in the stored
record afterwards.  (Interleaved calls can all succeed, see the
counterexample.) -/
theorem C2_sequential_at_most_once (s : Store) (code itemId : String) (t n : Nat)
    (dataEntry : DataRecord) (j : Nat) (item : DataItem)
    (hrec : findOne s (jsToUpper code) = some dataEntry)
    (hparse : parseIntJs itemId = some (j : Int))
    (hitem : dataEntry.items[j]? = some item)
    (hd : item.downloaded = false) :
    (runConsumes code itemId s t (n + 1)).2 =
      itemResponse dataEntry { item with downloaded := true, downloadedAt := some t }
          code itemId (j : Int) :: List.replicate n .alreadyConsumed ∧
    (itemResponse dataEntry { item with downloaded := true, downloadedAt := some t }
          code itemId (j : Int) ≠ .alreadyConsumed ∧
      itemResponse dataEntry { item with downloaded := true, downloadedAt := some t }
          code itemId (j : Int) ≠ .internalError ∧
      ∀ m, itemResponse dataEntry { item with downloaded := true, downloadedAt := some t }
          code itemId (j : Int) ≠ .notFound m) ∧
    ∃ rec2, findOne (runConsumes code itemId s t (n + 1)).1 (jsToUpper code) = some rec2 ∧
      rec2.items[j]? = some { item with downloaded := true, downloadedAt := some t } := by
  have hj : j < dataEntry.items.length := getElem?_lt hitem
  have hfirst := (downloadHandler_cases s code itemId t dataEntry j item hrec hparse hitem).2 hd
  set item2 : DataItem := { item with downloaded := true, downloadedAt := some t } with hitem2def
  set rec2 : DataRecord := { dataEntry with items := dataEntry.items.set j item2 } with hrec2def
  have h1 : downloadHandler s code itemId t =
      (saveReplace s rec2, itemResponse dataEntry item2 code itemId (j : Int)) := hfirst.1
  have hcode2 : rec2.code = jsToUpper code := by
    rw [hrec2def]
    show dataEntry.code = jsToUpper code
    exact findOne_code hrec
  have hfind1 : findOne (saveReplace s rec2) (jsToUpper code) = some rec2 :=
    findOne_saveReplace hrec hcode2
  have hitem2 : rec2.items[j]? = some item2 := by
    show (dataEntry.items.set j item2)[j]? = some item2
    exact List.getElem?_set_self hj
  have hstuck : ∀ u : Nat,
      downloadHandler (saveReplace s rec2) code itemId u = (saveReplace s rec2, .alreadyConsumed) :=
    fun u =>
      (downloadHandler_cases (saveReplace s rec2) code itemId u rec2 j item2
        hfind1 hparse hitem2).1 (by rw [hitem2def])
  have hrest := runConsumes_stuck code itemId (saveReplace s rec2) (t + 1) n hstuck
  refine ⟨?_, ⟨?_, ?_, ?_⟩, ⟨rec2, ?_, hitem2⟩⟩
  · simp [runConsumes, h1, hrest]
  · unfold itemResponse
    split <;> simp
  · unfold itemResponse
    split <;> simp
  · intro m
    unfold itemResponse
    split <;> simp
  · simp [runConsumes, h1, hrest, hfind1]

/-- Witness for the amended C2: two strictly sequential downloads of the same
fresh item yield one payload followed by one `AlreadyConsumed`. -/
theorem C2_sequential_at_most_once_witness :
    (runConsumes "123456" "0"
        [{ code := "123456", items := [{ data := JsValue.str "hi" }], createdAt := 0 }] 1 2).2 =
      DownloadResult.jsonResponse "123456" 0 (.str "hi") 0 :: List.replicate 1 .alreadyConsumed := by
  have h := (C2_sequential_at_most_once
      [{ code := "123456", items := [{ data := JsValue.str "hi" }], createdAt := 0 }]
      "123456" "0" 1 1
      { code := "123456", items := [{ data := JsValue.str "hi" }], createdAt := 0 }
      0 { data := JsValue.str "hi" } rfl rfl rfl rfl).1
  exact h

/-! ### C6: index validation of the download route -/

/-- Counterexample to C6: the consume route does not classify every
non-numeric index as `NotFound`.  `parseInt("abc")` is `NaN`, which passes
the range guard (`NaN < 0` and `NaN >= length` are both false), and the
subsequent property access on `items[NaN]` throws, so the caller receives
the 500 `InternalError` classification, not 404. -/
theorem C6_nonnumeric_index_internal_error :
    downloadHandler [{ code := "111111", items := [{ data := JsValue.str "ok" }], createdAt := 0 }]
        "111111" "abc" 0 =
      ([{ code := "111111", items := [{ data := JsValue.str "ok" }], createdAt := 0 }],
       .internalError) ∧
    DownloadResult.internalError ≠ DownloadResult.notFound "Data not found" ∧
    DownloadResult.internalError ≠ DownloadResult.notFound "Item not found" :=
  ⟨rfl, by simp, by simp⟩

/-- C6 (amended): for an existing record, a numeric index outside
`[0, items.length)` is rejected with 404 `NotFound` and no state change, and
an in-range numeric index never faults (never 500, never 404); but a
non-numeric index (`parseInt` = `NaN`) slips through the range guard and is
surfaced as 500 `InternalError` instead of `NotFound`. -/
theorem C6_index_validation (s : Store) (code itemId : String) (now : Nat)
    (dataEntry : DataRecord)
    (hrec : findOne s (jsToUpper code) = some dataEntry) :
    (∀ i : Int, parseIntJs itemId = some i →
      (i < 0 ∨ (dataEntry.items.length : Int) ≤ i) →
      downloadHandler s code itemId now = (s, .notFound "Item not found")) ∧
    (parseIntJs itemId = none →
      downloadHandler s code itemId now = (s, .internalError)) ∧
    (∀ i : Int, parseIntJs itemId = some i →
      0 ≤ i → i < (dataEntry.items.length : Int) →
      (downloadHandler s code itemId now).2 ≠ .internalError ∧
      ∀ m, (downloadHandler s code itemId now).2 ≠ .notFound m) := by
  refine ⟨?_, ?_, ?_⟩
  · intro i hp hcond
    simp [downloadHandler, downloadFetch, hrec, downloadCommit, hp, if_pos hcond]
  · intro hp
    simp [downloadHandler, downloadFetch, hrec, downloadCommit, hp]
  · intro i hp h0 hlen
    have hi : i.toNat < dataEntry.items.length := by omega
    have hsome : dataEntry.items[i.toNat]? = some (dataEntry.items[i.toNat]) :=
      List.getElem?_eq_getElem hi
    have hneg : ¬ (i < 0) := by omega
    have hle : ¬ ((dataEntry.items.length : Int) ≤ i) := by omega
    constructor
    · simp only [downloadHandler, downloadFetch, hrec, downloadCommit, hp, hneg, hle,
        or_self, if_false, hsome]
      split
      · simp
      · simp [itemResponse]
        split <;> simp
    · intro m
      simp only [downloadHandler, downloadFetch, hrec, downloadCommit, hp, hneg, hle,
        or_self, if_false, hsome]
      split
      · simp
      · simp [itemResponse]
        split <;> simp

/-- Witness for the amended C6: index 5 on a one-item record is answered 404
"Item not found" with no state change. -/
theorem C6_index_validation_witness :
    downloadHandler [{ code := "111111", items := [{ data := JsValue.str "ok" }], createdAt := 0 }]
        "111111" "5" 0 =
      ([{ code := "111111", items := [{ data := JsValue.str "ok" }], createdAt := 0 }],
       .notFound "Item not found") :=
  (C6_index_validation
    [{ code := "111111", items := [{ data := JsValue.str "ok" }], createdAt := 0 }]
    "111111" "5" 0
    { code := "111111", items := [{ data := JsValue.str "ok" }], createdAt := 0 } rfl).1
    (5 : Int) rfl (by norm_num)

theorem metaItems_getElem? (k : Nat) (l : List DataItem) (j : Nat) :
    (metaItems k l)[j]? = (l[j]?).map fun it => itemMeta (k + j) it := by
  induction l generalizing k j with
  | nil => simp [metaItems]
  | cons a t ih =>
    cases j with
    | zero => simp [metaItems]
    | succ j =>
      have harith : k + 1 + j = k + (j + 1) := by omega
      simp [metaItems, ih (k + 1) j, harith]

/-! ### C4: the verification gate -/

/-- C4: for every existing record, verify sets `verified = true` and
`verifiedAt` to the current time, persists the change, and returns per-item
metadata (index, isFile, file fields, consumed flag) in which the payload is
included for every non-file item and replaced by `null` for every file item;
verify on an absent code fails with `NotFound`. -/
theorem C4_verify_gate (s : Store) (c : String) (now : Nat) (hc : c ≠ "") :
    (findOne s (jsToUpper c) = none → verifyHandler s (.str c) now = (s, .notFound)) ∧
    (∀ dataEntry, findOne s (jsToUpper c) = some dataEntry →
      verifyHandler s (.str c) now =
        (saveReplace s { dataEntry with verified := true, verifiedAt := some now },
         .success dataEntry.code (metaItems 0 dataEntry.items) dataEntry.items.length
           true dataEntry.createdAt) ∧
      findOne (saveReplace s { dataEntry with verified := true, verifiedAt := some now })
          (jsToUpper c) = some { dataEntry with verified := true, verifiedAt := some now } ∧
      ∀ j it, dataEntry.items[j]? = some it →
        (metaItems 0 dataEntry.items)[j]? = some (itemMeta j it) ∧
        (it.isFile = false → (itemMeta j it).data = it.data) ∧
        (it.isFile = true → (itemMeta j it).data = JsValue.null)) := by
  constructor
  · intro habs
    simp [verifyHandler, truthy, hc, habs]
  · intro dataEntry hrec
    refine ⟨?_, ?_, ?_⟩
    · simp [verifyHandler, truthy, hc, hrec]
    · exact findOne_saveReplace hrec
        (show dataEntry.code = jsToUpper c from findOne_code hrec)
    · intro j it hit
      refine ⟨?_, ?_, ?_⟩
      · simp [metaItems_getElem?, hit]
      · intro hf
        simp [itemMeta, hf]
      · intro hf
        simp [itemMeta, hf]

/-- Witness for C4 on a record holding one data item and one file item. -/
theorem C4_verify_gate_witness :
    verifyHandler
        [{ code := "222222",
           items := [{ data := JsValue.str "secret" },
                     { data := JsValue.str "QUJD", fileName := some "a.bin",
                       fileType := some "application/octet-stream", fileSize := some 3,
                       isFile := true }],
           createdAt := 4 }] (.str "222222") 9 =
      ([{ code := "222222",
          items := [{ data := JsValue.str "secret" },
                    { data := JsValue.str "QUJD", fileName := some "a.bin",
                      fileType := some "application/octet-stream", fileSize := some 3,
                      isFile := true }],
          createdAt := 4, verified := true, verifiedAt := some 9 }],
       .success "222222"
         [{ id := 0, isFile := false, fileName := none, fileType := none, fileSize := none,
            downloaded := false, data := JsValue.str "secret" },
          { id := 1, isFile := true, fileName := some "a.bin",
            fileType := some "application/octet-stream", fileSize := some 3,
            downloaded := false, data := JsValue.null }] 2 true 4) := by
  have h := ((C4_verify_gate
      [{ code := "222222",
         items := [{ data := JsValue.str "secret" },
                   { data := JsValue.str "QUJD", fileName := some "a.bin",
                     fileType := some "application/octet-stream", fileSize := some 3,
                     isFile := true }],
         createdAt := 4 }] "222222" 9 (by simp)).2
    { code := "222222",
      items := [{ data := JsValue.str "secret" },
                { data := JsValue.str "QUJD", fileName := some "a.bin",
                  fileType := some "application/octet-stream", fileSize := some 3,
                  isFile := true }],
      createdAt := 4 } rfl).1
  exact h

/-! ### C9: verification is idempotent -/

/-- C9: verifying twice in sequence yields `verified = true` in both
responses, the second response is identical to the first (same items, item
count, code, createdAt), and the stored record's `verifiedAt` is overwritten
to the second call's time. -/
theorem C9_verify_idempotent (s : Store) (c : String) (t1 t2 : Nat) (dataEntry : DataRecord)
    (hc : c ≠ "") (hrec : findOne s (jsToUpper c) = some dataEntry) :
    (verifyHandler s (.str c) t1).2 =
      .success dataEntry.code (metaItems 0 dataEntry.items) dataEntry.items.length
        true dataEntry.createdAt ∧
    (verifyHandler (verifyHandler s (.str c) t1).1 (.str c) t2).2 =
      (verifyHandler s (.str c) t1).2 ∧
    findOne (verifyHandler (verifyHandler s (.str c) t1).1 (.str c) t2).1 (jsToUpper c) =
      some { dataEntry with verified := true, verifiedAt := some t2 } := by
  have h1 : verifyHandler s (.str c) t1 =
      (saveReplace s { dataEntry with verified := true, verifiedAt := some t1 },
       .success dataEntry.code (metaItems 0 dataEntry.items) dataEntry.items.length
         true dataEntry.createdAt) := by
    simp [verifyHandler, truthy, hc, hrec]
  have hcode1 : ({ dataEntry with verified := true, verifiedAt := some t1 } : DataRecord).code =
      jsToUpper c := show dataEntry.code = jsToUpper c from findOne_code hrec
  have hfind1 : findOne (saveReplace s { dataEntry with verified := true, verifiedAt := some t1 })
      (jsToUpper c) = some { dataEntry with verified := true, verifiedAt := some t1 } :=
    findOne_saveReplace hrec hcode1
  have h2 : verifyHandler
      (saveReplace s { dataEntry with verified := true, verifiedAt := some t1 }) (.str c) t2 =
      (saveReplace (saveReplace s { dataEntry with verified := true, verifiedAt := some t1 })
         { dataEntry with verified := true, verifiedAt := some t2 },
       .success dataEntry.code (metaItems 0 dataEntry.items) dataEntry.items.length
         true dataEntry.createdAt) := by
    simp [verifyHandler, truthy, hc, hfind1]
  have hcode2 : ({ dataEntry with verified := true, verifiedAt := some t2 } : DataRecord).code =
      jsToUpper c := show dataEntry.code = jsToUpper c from findOne_code hrec
  refine ⟨?_, ?_, ?_⟩
  · rw [h1]
  · rw [h1]
    rw [show (saveReplace s { dataEntry with verified := true, verifiedAt := some t1 },
        VerifyResult.success dataEntry.code (metaItems 0 dataEntry.items)
          dataEntry.items.length true dataEntry.createdAt).1 =
        saveReplace s { dataEntry with verified := true, verifiedAt := some t1 } from rfl]
    rw [h2]
  · rw [h1]
    rw [show (saveReplace s { dataEntry with verified := true, verifiedAt := some t1 },
        VerifyResult.success dataEntry.code (metaItems 0 dataEntry.items)
          dataEntry.items.length true dataEntry.createdAt).1 =
        saveReplace s { dataEntry with verified := true, verifiedAt := some t1 } from rfl]
    rw [h2]
    exact findOne_saveReplace hfind1 hcode2

/-- Witness for C9 on a one-item record verified at times 5 and 7. -/
theorem C9_verify_idempotent_witness :
    (verifyHandler [{ code := "333333", items := [{ data := JsValue.str "x" }], createdAt := 1 }]
        (.str "333333") 5).2 =
      .success "333333" (metaItems 0 [{ data := JsValue.str "x" }]) 1 true 1 ∧
    (verifyHandler
        (verifyHandler [{ code := "333333", items := [{ data := JsValue.str "x" }], createdAt := 1 }]
          (.str "333333") 5).1 (.str "333333") 7).2 =
      (verifyHandler [{ code := "333333", items := [{ data := JsValue.str "x" }], createdAt := 1 }]
        (.str "333333") 5).2 ∧
    findOne
        (verifyHandler
          (verifyHandler
            [{ code := "333333", items := [{ data := JsValue.str "x" }], createdAt := 1 }]
            (.str "333333") 5).1 (.str "333333") 7).1 (jsToUpper "333333") =
      some { code := "333333", items := [{ data := JsValue.str "x" }], createdAt := 1,
             verified := true, verifiedAt := some 7 } :=
  C9_verify_idempotent
    [{ code := "333333", items := [{ data := JsValue.str "x" }], createdAt := 1 }]
    "333333" 5 7
    { code := "333333", items := [{ data := JsValue.str "x" }], createdAt := 1 }
    (by simp) rfl

/-! ### C10: consumption does not revoke non-file payload visibility -/

/-- C10: for a non-file item, the projection used by both verification and
the read-only metadata lookup carries the item's full payload value with no
dependence on its `downloaded` flag (the flag is left universally
quantified), so consuming a non-file item does not hide its payload from
verify or metadata reads. -/
theorem C10_nonfile_payload_always_visible (s : Store) (c : String) (now : Nat)
    (dataEntry : DataRecord) (j : Nat) (it : DataItem)
    (hc : c ≠ "") (hrec : findOne s (jsToUpper c) = some dataEntry)
    (hit : dataEntry.items[j]? = some it) (hfile : it.isFile = false) :
    (itemMeta j it).data = it.data ∧
    (metaItems 0 dataEntry.items)[j]? = some (itemMeta j it) ∧
    (verifyHandler s (.str c) now).2 =
      .success dataEntry.code (metaItems 0 dataEntry.items) dataEntry.items.length
        true dataEntry.createdAt ∧
    getDataHandler s c =
      (s, .success dataEntry.code (metaItems 0 dataEntry.items) dataEntry.items.length
        dataEntry.verified dataEntry.createdAt dataEntry.verifiedAt) := by
  refine ⟨?_, ?_, ?_, ?_⟩
  · simp [itemMeta, hfile]
  · simp [metaItems_getElem?, hit]
  · simp [verifyHandler, truthy, hc, hrec]
  · simp [getDataHandler, hrec]

/-- Witness for C10 on an already-consumed (`downloaded = true`) non-file
item: both read paths still return the payload. -/
theorem C10_nonfile_payload_always_visible_witness :
    (itemMeta 0 { data := JsValue.str "v", downloaded := true }).data = JsValue.str "v" ∧
    (metaItems 0 [{ data := JsValue.str "v", downloaded := true }])[0]? =
      some (itemMeta 0 { data := JsValue.str "v", downloaded := true }) ∧
    (verifyHandler [{ code := "444444", createdAt := 2,
                      items := [{ data := JsValue.str "v", downloaded := true }] }]
        (.str "444444") 8).2 =
      .success "444444" (metaItems 0 [{ data := JsValue.str "v", downloaded := true }]) 1 true 2 ∧
    getDataHandler [{ code := "444444", createdAt := 2,
                      items := [{ data := JsValue.str "v", downloaded := true }] }] "444444" =
      ([{ code := "444444", createdAt := 2,
          items := [{ data := JsValue.str "v", downloaded := true }] }],
       .success "444444" (metaItems 0 [{ data := JsValue.str "v", downloaded := true }]) 1
         false 2 none) :=
  C10_nonfile_payload_always_visible
    [{ code := "444444", createdAt := 2,
       items := [{ data := JsValue.str "v", downloaded := true }] }]
    "444444" 8
    { code := "444444", createdAt := 2,
      items := [{ data := JsValue.str "v", downloaded := true }] }
    0 { data := JsValue.str "v", downloaded := true } (by simp) rfl rfl rfl

/-! ### C5: structured ingestion validation -/

/-- C5 (amended): structured ingestion fails with `ValidationError` exactly
when the single `data` value is absent or JS-falsy AND the `multipleData`
value is absent, falsy, or has a length property equal to `0`; on success,
if `multipleData` is an array its elements become the items, otherwise the
single `data` value becomes one item, every stored item has
`isFile = false` (and starts unconsumed), and the response carries the
minted code and the item count, the record being appended to the store. -/
theorem C5_structured_ingestion (s : Store) (data md : JsValue) (rands : List ℚ) (now : Nat) :
    (generateCodeHandler s data md rands now = some (s, .validationError) ↔
      (truthy data = false ∧ (truthy md = false ∨ lengthZero md = true))) ∧
    (∀ s2 code cnt, generateCodeHandler s data md rands now = some (s2, .success code cnt) →
      cnt = (buildItems data md).length ∧
      s2 = s ++ [{ code := code, items := buildItems data md, verified := false,
                   createdAt := now }] ∧
      (∀ it, it ∈ buildItems data md → it.isFile = false ∧ it.downloaded = false) ∧
      (match md with
       | .arr l => buildItems data md =
           l.map fun v => { data := v, isFile := false, downloaded := false }
       | _ => buildItems data md = [{ data := data, isFile := false, downloaded := false }])) := by
  constructor
  · constructor
    · intro h
      by_cases hcond : truthy data = false ∧ (truthy md = false ∨ lengthZero md = true)
      · exact hcond
      · exfalso
        rw [generateCodeHandler, if_neg hcond] at h
        split at h
        · exact Option.noConfusion h
        · injection h with h
          unfold genInsert at h
          split at h
          · simp at h
          · split at h <;> simp at h
    · intro hcond
      rw [generateCodeHandler, if_pos hcond]
  · intro s2 code cnt h
    rw [generateCodeHandler] at h
    split at h
    · simp at h
    · split at h
      · exact Option.noConfusion h
      · rename_i c heq
        injection h with h
        unfold genInsert at h
        split at h
        · simp at h
        · split at h
          · simp at h
          · rename_i s3 hins
            unfold insertNew at hins
            split at hins
            · exact Option.noConfusion hins
            · injection hins with hins
              rw [Prod.mk.injEq] at h
              obtain ⟨h1, h2⟩ := h
              injection h2 with hc hcnt
              subst hc
              subst hcnt
              subst h1
              refine ⟨rfl, hins.symm, ?_, ?_⟩
              · intro it hit
                rw [buildItems] at hit
                split at hit
                · simp only [List.mem_map] at hit
                  obtain ⟨v, _, rfl⟩ := hit
                  exact ⟨rfl, rfl⟩
                · simp only [List.mem_singleton] at hit
                  subst hit
                  exact ⟨rfl, rfl⟩
              · cases md <;> simp [buildItems, truthy, isArr, jsElems]

/-- Counterexample to C5: the empty string IS a supplied single data value,
but it is JS-falsy, so `!data` is true and ingestion rejects it with
`ValidationError` — refuting "fails exactly when neither a single value is
present nor a non-empty list is supplied". -/
theorem C5_counterexample_empty_string :
    generateCodeHandler [] (.str "") .undef [0] 3 = some ([], .validationError) := rfl

/-- Witness for C5: a body with no `data` and no `multipleData` at all is a
genuine `ValidationError`. -/
theorem C5_structured_ingestion_witness :
    generateCodeHandler [] JsValue.undef JsValue.undef [0] 3 = some ([], .validationError) :=
  (C5_structured_ingestion [] .undef .undef [0] 3).1.mpr ⟨rfl, Or.inl rfl⟩

/-! ### C3: duplicate codes at insert time -/

/-- C3 (amended): duplicate codes are avoided only by the pre-insert
existence-check loop, which keeps drawing until the candidate has no
existing record (so any code it returns is fresh at check time); when the
insert itself is rejected because the code already exists (the race
window), the route's `catch` block surfaces 500 `InternalError` to the
caller, with no retry and no state change — the duplicate rejection is
never turned into a regenerate-and-retry. -/
theorem C3_duplicate_code_not_retried (s : Store) (code : String) (items : List DataItem)
    (now : Nat) (rands : List ℚ) :
    ((findOne s code).isSome = true →
      genInsert s code items now = (s, .internalError)) ∧
    (∀ c, genFindFresh s rands = some c →
      findOne s c = none ∧ c ∈ rands.map generateCode) := by
  constructor
  · intro hdup
    unfold genInsert
    split
    · rfl
    · unfold insertNew
      simp only [hdup, if_true]
  · intro c hfind
    constructor
    · have := List.find?_some hfind
      rwa [Option.isNone_iff_eq_none] at this
    · exact List.mem_of_find?_eq_some hfind

/-- Counterexample to C3: the uniqueness loop (run against an empty store)
chooses code "100000"; after a concurrent ingestion has inserted "100000",
the first caller's insert is rejected as a duplicate and the caller receives
`InternalError` — the duplicate is surfaced, not retried, contradicting
"never surfaces a DuplicateCode failure to the caller". -/
theorem C3_insert_duplicate_surfaces_500 :
    genFindFresh [] [0] = some (generateCode 0) ∧
    generateCode 0 = "100000" ∧
    genInsert [{ code := "100000", items := [{ data := JsValue.str "b" }], createdAt := 0 }]
        "100000" [{ data := JsValue.str "a" }] 1 =
      ([{ code := "100000", items := [{ data := JsValue.str "b" }], createdAt := 0 }],
       .internalError) ∧
    GenerateResult.internalError ≠ GenerateResult.success "100000" 1 :=
  ⟨rfl, generateCode_zero, rfl, by simp⟩

/-- Witness for the amended C3: an insert against a store already holding
the code is answered 500 with the store unchanged. -/
theorem C3_duplicate_code_not_retried_witness :
    genInsert [{ code := "100000", items := [{ data := JsValue.str "b" }], createdAt := 0 }]
        "100000" [{ data := JsValue.str "a" }] 1 =
      ([{ code := "100000", items := [{ data := JsValue.str "b" }], createdAt := 0 }],
       .internalError) :=
  (C3_duplicate_code_not_retried
    [{ code := "100000", items := [{ data := JsValue.str "b" }], createdAt := 0 }]
    "100000" [{ data := JsValue.str "a" }] 1 []).1 rfl

/-! ### C8: the consumed-flag/timestamp invariant -/

/-- The claimed item invariant: the consumed flag is set iff the consumption
timestamp is set. -/
def itemInv (it : DataItem) : Prop :=
  it.downloaded = true ↔ it.downloadedAt.isSome = true

/-- Every item of the record satisfies the invariant. -/
def recInv (r : DataRecord) : Prop :=
  ∀ it ∈ r.items, itemInv it

/-- Every record of the store satisfies the invariant. -/
def storeInv (s : Store) : Prop :=
  ∀ r ∈ s, recInv r

theorem storeInv_saveReplace {s : Store} {r2 : DataRecord}
    (h : storeInv s) (h2 : recInv r2) : storeInv (saveReplace s r2) := by
  intro r hr
  simp only [saveReplace, List.mem_map] at hr
  obtain ⟨x, hx, hxr⟩ := hr
  by_cases hc : x.code = r2.code
  · rw [if_pos hc] at hxr
    subst hxr
    exact h2
  · rw [if_neg hc] at hxr
    subst hxr
    exact h x hx

theorem storeInv_append {s : Store} {r : DataRecord}
    (h : storeInv s) (h2 : recInv r) : storeInv (s ++ [r]) := by
  intro x hx
  rcases List.mem_append.mp hx with hm | hm
  · exact h x hm
  · rw [List.mem_singleton] at hm
    subst hm
    exact h2

theorem storeInv_deleteFirst {s : Store} (c : String)
    (h : storeInv s) : storeInv (deleteFirst s c) := by
  induction s with
  | nil => intro r hr; simp [deleteFirst] at hr
  | cons a t ih =>
    intro r hr
    rw [deleteFirst] at hr
    split at hr
    · exact h r (List.mem_cons_of_mem a hr)
    · rcases List.mem_cons.mp hr with hm | hm
      · subst hm
        exact h r (List.mem_cons_self r t)
      · exact ih (fun x hx => h x (List.mem_cons_of_mem a hx)) r hm

theorem buildItems_fresh (data md : JsValue) :
    ∀ it ∈ buildItems data md, it.downloaded = false ∧ it.downloadedAt = none := by
  intro it hit
  rw [buildItems] at hit
  split at hit
  · simp only [List.mem_map] at hit
    obtain ⟨v, _, rfl⟩ := hit
    exact ⟨rfl, rfl⟩
  · simp only [List.mem_singleton] at hit
    subst hit
    exact ⟨rfl, rfl⟩

theorem uploadItems_fresh (files : List UploadFile) :
    ∀ it ∈ uploadItems files, it.downloaded = false ∧ it.downloadedAt = none := by
  intro it hit
  simp only [uploadItems, List.mem_map] at hit
  obtain ⟨f, _, rfl⟩ := hit
  exact ⟨rfl, rfl⟩

theorem recInv_of_fresh {l : List DataItem}
    (h : ∀ it ∈ l, it.downloaded = false ∧ it.downloadedAt = none) :
    ∀ it ∈ l, itemInv it := by
  intro it hit
  obtain ⟨h1, h2⟩ := h it hit
  simp [itemInv, h1, h2]

/-- C8: items are created with `downloaded = false` and no `downloadedAt`,
the two fields are only ever set together by the consume transition, and the
invariant `downloaded = true ↔ downloadedAt is set` is preserved by every
operation: both ingestion routes, verification, the metadata read,
consumption, and deletion. -/
theorem C8_consumed_iff_consumedAt (s : Store) (hinv : storeInv s) :
    (∀ data md rands now out,
      generateCodeHandler s data md rands now = some out → storeInv out.1) ∧
    (∀ files rands now out,
      uploadFileHandler s files rands now = some out → storeInv out.1) ∧
    (∀ body now, storeInv (verifyHandler s body now).1) ∧
    (∀ code, storeInv (getDataHandler s code).1) ∧
    (∀ code itemId now, storeInv (downloadHandler s code itemId now).1) ∧
    (∀ code, storeInv (deleteHandler s code).1) ∧
    (∀ data md, ∀ it ∈ buildItems data md,
      it.downloaded = false ∧ it.downloadedAt = none) ∧
    (∀ files, ∀ it ∈ uploadItems files,
      it.downloaded = false ∧ it.downloadedAt = none) := by
  refine ⟨?_, ?_, ?_, ?_, ?_, ?_, buildItems_fresh, uploadItems_fresh⟩
  · intro data md rands now out hout
    rw [generateCodeHandler] at hout
    split at hout
    · injection hout with hout
      rw [← hout]
      exact hinv
    · split at hout
      · exact Option.noConfusion hout
      · injection hout with hout
        unfold genInsert at hout
        split at hout
        · rw [← hout]
          exact hinv
        · split at hout
          · rw [← hout]
            exact hinv
          · rename_i s3 hins
            unfold insertNew at hins
            split at hins
            · exact Option.noConfusion hins
            · injection hins with hins
              rw [← hout]
              show storeInv s3
              rw [← hins]
              exact storeInv_append hinv (recInv_of_fresh (buildItems_fresh data md))
  · intro files rands now out hout
    rw [uploadFileHandler] at hout
    split at hout
    · injection hout with hout
      rw [← hout]
      exact hinv
    · split at hout
      · exact Option.noConfusion hout
      · split at hout
        · injection hout with hout
          rw [← hout]
          exact hinv
        · split at hout
          · injection hout with hout
            rw [← hout]
            exact hinv
          · rename_i s3 hins
            injection hout with hout
            unfold insertNew at hins
            split at hins
            · exact Option.noConfusion hins
            · injection hins with hins
              rw [← hout]
              show storeInv s3
              rw [← hins]
              exact storeInv_append hinv (recInv_of_fresh (uploadItems_fresh files))
  · intro body now
    unfold verifyHandler
    split
    · exact hinv
    · split
      · rename_i c
        split
        · exact hinv
        · rename_i dataEntry hfind
          apply storeInv_saveReplace hinv
          intro it hit
          exact hinv dataEntry (List.mem_of_find?_eq_some hfind) it hit
      · exact hinv
  · intro code
    unfold getDataHandler
    split <;> exact hinv
  · intro code itemId now
    unfold downloadHandler
    split
    · exact hinv
    · rename_i dataEntry hfetch
      have hmem : dataEntry ∈ s := List.mem_of_find?_eq_some hfetch
      unfold downloadCommit
      split
      · exact hinv
      · split
        · exact hinv
        · split
          · exact hinv
          · rename_i item hsome
            split
            · exact hinv
            · rename_i hnotdl
              apply storeInv_saveReplace hinv
              intro it hit
              rcases List.mem_or_eq_of_mem_set hit with hm | hm
              · exact hinv dataEntry hmem it hm
              · subst hm
                simp [itemInv]
  · intro code
    unfold deleteHandler
    split
    · exact hinv
    · exact storeInv_deleteFirst (jsToUpper code) hinv

/-- Witness for C8: the invariant holds of a concrete store and is kept by a
delete call against it. -/
theorem C8_consumed_iff_consumedAt_witness :
    storeInv ((deleteHandler
      [{ code := "555555", items := [{ data := JsValue.str "z" }], createdAt := 0 }]
      "555555").1) :=
  (C8_consumed_iff_consumedAt
    [{ code := "555555", items := [{ data := JsValue.str "z" }], createdAt := 0 }]
    (by simp [storeInv, recInv, itemInv])).2.2.2.2.2.1 "555555"
